import Mathlib

/-!
Verification of the interactive 3D scene core (`src/lib/Scene.ts`).

The development shallowly embeds the placement, proximity-animation, surface
sampling and particle-pool logic of the `Scene` class.  Scalars are modelled
as exact rationals (`ℚ`); three.js vectors become a record of three rationals.
Randomness (`Math.random()` draws) is passed in explicitly as parameters, with
the range `[0, 1)` stated as a hypothesis where a theorem needs it.
-/

/-- A 3-component vector, mirroring `THREE.Vector3` with exact coordinates. -/
structure Vec3 where
  x : ℚ
  y : ℚ
  z : ℚ
deriving DecidableEq, Repr

/-- `Vector3.multiplyScalar`. -/
def Vec3.multiplyScalar (v : Vec3) (s : ℚ) : Vec3 :=
  ⟨v.x * s, v.y * s, v.z * s⟩

/-- `Vector3.dot`. -/
def Vec3.dot (a b : Vec3) : ℚ :=
  a.x * b.x + a.y * b.y + a.z * b.z

/-- `Vector3.add`. -/
def Vec3.add (a b : Vec3) : Vec3 :=
  ⟨a.x + b.x, a.y + b.y, a.z + b.z⟩

/-- `Vector3.addScaledVector v s`: adds `v` scaled by `s`. -/
def Vec3.addScaledVector (a v : Vec3) (s : ℚ) : Vec3 :=
  ⟨a.x + v.x * s, a.y + v.y * s, a.z + v.z * s⟩

/-- `new THREE.Vector3()` (the zero vector). -/
def Vec3.zero : Vec3 := ⟨0, 0, 0⟩

/-!
## Proximity animator (`updateGrass`, Scene.ts lines 394-433)

For each grass instance the code computes the perpendicular distance of the
instance position to the pointer ray (`ray.distanceToPoint`, an external
three.js routine, so the distance is a parameter here) and sets `targetScale`:

```
if (distanceToRay < this.interactionRadius) {
  const scaleFactor = 5.5 + (1 - distanceToRay / this.interactionRadius) * 5.5;
  grass.targetScale.copy(grass.originalScale).multiplyScalar(scaleFactor);
  ...
} else {
  grass.targetScale.copy(new THREE.Vector3(0, 0, 0));
}
```
-/

/-- The scale factor `5.5 + (1 - distance/radius) * 5.5` from `updateGrass`. -/
def grassScaleFactor (distanceToRay interactionRadius : ℚ) : ℚ :=
  11 / 2 + (1 - distanceToRay / interactionRadius) * (11 / 2)

/-- The `targetScale` assignment of `updateGrass`: the proximity branch takes
`originalScale` scaled by `grassScaleFactor`, the far branch the zero vector. -/
def grassTargetScale (distanceToRay interactionRadius : ℚ)
    (originalScale : Vec3) : Vec3 :=
  if distanceToRay < interactionRadius then
    originalScale.multiplyScalar (grassScaleFactor distanceToRay interactionRadius)
  else
    Vec3.zero

/-- The default `interactionRadius` of the scene (2.5). -/
def defaultInteractionRadius : ℚ := 5 / 2

/-- C1: proximity scale law of the per-frame animator.  Inside the radius the
target scale is `originalScale` times `5.5 + (1 - d/radius) * 5.5`; the factor
is `11` at distance `0` and `5.5` at distance `radius`; beyond the radius the
target scale is the zero vector, not `originalScale`. -/
theorem grass_proximity_scale_law (d radius : ℚ) (s : Vec3) (hr : 0 < radius) :
    (d < radius →
      grassTargetScale d radius s =
        s.multiplyScalar (11 / 2 + (1 - d / radius) * (11 / 2))) ∧
    grassScaleFactor 0 radius = 11 ∧
    grassScaleFactor radius radius = 11 / 2 ∧
    (radius < d → grassTargetScale d radius s = Vec3.zero) := by
  refine ⟨fun h => ?_, ?_, ?_, fun h => ?_⟩
  · simp [grassTargetScale, grassScaleFactor, h]
  · simp [grassScaleFactor]
  · have hne : radius ≠ 0 := ne_of_gt hr
    simp [grassScaleFactor, div_self hne]
  · have : ¬ d < radius := not_lt.mpr (le_of_lt h)
    simp [grassTargetScale, this]

/-- Witness for C1 at radius `5/2` (the scene default), distance `3`, original
scale `(1, 2, 3)`. -/
theorem grass_proximity_scale_law_witness :
    ((3 : ℚ) < 5 / 2 →
      grassTargetScale 3 (5 / 2) ⟨1, 2, 3⟩ =
        Vec3.multiplyScalar ⟨1, 2, 3⟩ (11 / 2 + (1 - 3 / (5 / 2)) * (11 / 2))) ∧
    grassScaleFactor 0 (5 / 2) = 11 ∧
    grassScaleFactor (5 / 2) (5 / 2) = 11 / 2 ∧
    ((5 : ℚ) / 2 < 3 → grassTargetScale 3 (5 / 2) ⟨1, 2, 3⟩ = Vec3.zero) :=
  grass_proximity_scale_law 3 (5 / 2) ⟨1, 2, 3⟩ (by norm_num)

/-!
## Instance placer (`generateGrassOnModel`, Scene.ts lines 436-526)

The placer requests `grassCount * 2` sample points, filters them to those
whose (unit) normal has dot product `> 0.4` with world up, then selects
`Math.min(grassCount, points.length)` elements of the filtered set if it has
more than `grassCount` elements, falling back to the unfiltered set otherwise:

```
const upwardPoints = points.filter((point) => point.normal.dot(up) > 0.4);
const selectedPoints = this.getRandomElements(
  upwardPoints.length > grassCount ? upwardPoints : points,
  Math.min(grassCount, points.length));
```

One grass instance is created per selected point.  `getRandomElements`
shuffles a copy of the array and takes the first `count` elements; the
shuffle is modelled as an arbitrary length-preserving function.
-/

/-- A sampled surface point, `{position, normal}`. -/
structure SurfacePoint where
  position : Vec3
  normal : Vec3
deriving DecidableEq, Repr

/-- The world-up vector used by the upward filter. -/
def upVector : Vec3 := ⟨0, 1, 0⟩

/-- The placer's upward filter: keeps points with `normal.dot(up) > 0.4`. -/
def upwardFilter (points : List SurfacePoint) : List SurfacePoint :=
  points.filter fun p => decide ((2 : ℚ) / 5 < p.normal.dot upVector)

/-- `getRandomElements`: shuffle a copy of the array, take the first `count`
elements.  The shuffle (`sort(() => 0.5 - Math.random())`) is a
permutation of the array, abstracted as the parameter `shuffle`. -/
def getRandomElements (shuffle : List SurfacePoint → List SurfacePoint)
    (array : List SurfacePoint) (count : ℕ) : List SurfacePoint :=
  (shuffle array).take count

/-- The point-selection logic of `generateGrassOnModel`, from the sampled
`points` list on: the early return on an empty sample, the upward filter,
the fallback to the unfiltered set, and `Math.min(grassCount, points.length)`.
Each returned point yields exactly one placed instance. -/
def selectGrassPoints (shuffle : List SurfacePoint → List SurfacePoint)
    (points : List SurfacePoint) (grassCount : ℕ) : List SurfacePoint :=
  if points.length = 0 then
    []
  else
    let upwardPoints := upwardFilter points
    getRandomElements shuffle
      (if grassCount < upwardPoints.length then upwardPoints else points)
      (min grassCount points.length)

/-- C2: instance count of placement.  With a length-preserving shuffle the
placer creates exactly `min grassCount points.length` instances (no error on
too few eligible points), and when at least `2 * N` sampled points pass the
upward filter out of a `2 * N` point sample it creates exactly `N`. -/
theorem place_instance_count (shuffle : List SurfacePoint → List SurfacePoint)
    (hs : ∀ l, (shuffle l).length = l.length)
    (points : List SurfacePoint) (N : ℕ) :
    (selectGrassPoints shuffle points N).length = min N points.length ∧
    (2 * N ≤ (upwardFilter points).length → points.length = 2 * N →
      (selectGrassPoints shuffle points N).length = N) := by
  have hlen : (selectGrassPoints shuffle points N).length = min N points.length := by
    by_cases h0 : points.length = 0
    · simp [selectGrassPoints, h0]
    · have hup : (upwardFilter points).length ≤ points.length :=
        List.length_filter_le _ _
      by_cases hbr : N < (upwardFilter points).length
      · simp only [selectGrassPoints, h0, if_false, if_pos hbr,
          getRandomElements, List.length_take, hs]
        omega
      · simp only [selectGrassPoints, h0, if_false, if_neg hbr,
          getRandomElements, List.length_take, hs]
        omega
  refine ⟨hlen, fun _ h2N => ?_⟩
  rw [hlen, h2N]
  omega

/-- Witness for C2: identity shuffle, two upward-facing sample points,
`grassCount = 1` — exactly one instance point selected. -/
theorem place_instance_count_witness :
    (selectGrassPoints id
        [⟨⟨0, 0, 0⟩, ⟨0, 1, 0⟩⟩, ⟨⟨1, 0, 0⟩, ⟨0, 1, 0⟩⟩] 1).length =
      min 1 ([⟨⟨0, 0, 0⟩, ⟨0, 1, 0⟩⟩, (⟨⟨1, 0, 0⟩, ⟨0, 1, 0⟩⟩ : SurfacePoint)]).length ∧
    (2 * 1 ≤ (upwardFilter
        [⟨⟨0, 0, 0⟩, ⟨0, 1, 0⟩⟩, ⟨⟨1, 0, 0⟩, ⟨0, 1, 0⟩⟩]).length →
      ([⟨⟨0, 0, 0⟩, ⟨0, 1, 0⟩⟩, (⟨⟨1, 0, 0⟩, ⟨0, 1, 0⟩⟩ : SurfacePoint)]).length = 2 * 1 →
      (selectGrassPoints id
          [⟨⟨0, 0, 0⟩, ⟨0, 1, 0⟩⟩, ⟨⟨1, 0, 0⟩, ⟨0, 1, 0⟩⟩] 1).length = 1) :=
  place_instance_count id (fun _ => rfl)
    [⟨⟨0, 0, 0⟩, ⟨0, 1, 0⟩⟩, ⟨⟨1, 0, 0⟩, ⟨0, 1, 0⟩⟩] 1

/-!
## Target lookup of `generateGrassOnModel` (Scene.ts lines 442-453)

```
let targetModel: THREE.Object3D | null = null;
this.mainModel.traverse((child) => {
  if (child.name.toLowerCase().includes(modelName.toLowerCase())) {
    targetModel = child;
  }
});
if (!targetModel) { console.warn(...); return; }
```

`traverse` visits the subtree's nodes in a fixed depth-first order; the
traversal is modelled as the list of visited nodes in that order.  Names are
lists of characters (`String.includes` and `String.toLowerCase` become list
operations on the character data).
-/

/-- A scene-graph node as seen by the name search: its `name` (as character
data) and a distinguishing identity. -/
structure SceneNode where
  name : List Char
  id : ℕ
deriving DecidableEq, Repr

/-- JavaScript `hay.includes(needle)`: `needle` occurs contiguously in `hay`
(the empty needle always occurs). -/
def strIncludes (hay needle : List Char) : Bool :=
  hay.tails.any fun t => needle.isPrefixOf t

/-- The match predicate of the traversal callback:
`child.name.toLowerCase().includes(modelName.toLowerCase())`. -/
def nameMatches (modelName : List Char) (child : SceneNode) : Bool :=
  strIncludes (child.name.map Char.toLower) (modelName.map Char.toLower)

/-- The traversal search for the target model: every match overwrites
`targetModel`, which starts as `null` (`none`). -/
def findTargetModel (modelName : List Char) (nodes : List SceneNode) :
    Option SceneNode :=
  nodes.foldl (fun targetModel child =>
    if nameMatches modelName child then some child else targetModel) none

/-- The fold of `findTargetModel`, over any starting accumulator, yields the
last match when one exists and the accumulator otherwise. -/
theorem findTargetModel_foldl (modelName : List Char) (nodes : List SceneNode)
    (acc : Option SceneNode) :
    nodes.foldl (fun targetModel child =>
        if nameMatches modelName child then some child else targetModel) acc =
      (((nodes.filter (nameMatches modelName)).getLast?) <|> acc) := by
  induction nodes using List.reverseRecOn with
  | nil => simp
  | append_singleton l a ih =>
    rw [List.foldl_append, List.filter_append]
    by_cases hpa : nameMatches modelName a
    · simp [ih, hpa]
    · simp [ih, hpa]

/-- C10: when several nodes of the traversed subtree match the target name by
case-insensitive substring, the search keeps the last match in traversal
order; it reports not-found (`none`, the warning path) exactly when no node
matches. -/
theorem find_target_last_match (modelName : List Char) (nodes : List SceneNode) :
    findTargetModel modelName nodes =
      (nodes.filter (nameMatches modelName)).getLast? ∧
    (findTargetModel modelName nodes = none ↔
      nodes.filter (nameMatches modelName) = []) := by
  have h := findTargetModel_foldl modelName nodes none
  have heq : findTargetModel modelName nodes =
      (nodes.filter (nameMatches modelName)).getLast? := by
    rw [findTargetModel, h]
    cases (nodes.filter (nameMatches modelName)).getLast? <;> rfl
  refine ⟨heq, ?_⟩
  rw [heq, List.getLast?_eq_none_iff]

/-!
## Area-weighted triangle selection
(`generateEvenlyDistributedPoints`, Scene.ts lines 642-658)

```
const randomValue = Math.random() * totalArea;
let areaSum = 0;
let selectedTriangle;
for (const triangle of allTriangles) {
  areaSum += triangle.area;
  if (randomValue <= areaSum) { selectedTriangle = triangle; break; }
}
if (!selectedTriangle) {
  selectedTriangle = allTriangles[allTriangles.length - 1];
}
```

Note the stopping condition is `randomValue <= areaSum` — the running sum
need only reach the draw value, not strictly exceed it.
-/

/-- A cached triangle record: world-space vertices, world-space unit vertex
normals and precomputed area (the area is stored by the sampler's first pass;
its computation, `cross.length() * 0.5`, is kept as data here). -/
structure Tri where
  p1 : Vec3
  p2 : Vec3
  p3 : Vec3
  n1 : Vec3
  n2 : Vec3
  n3 : Vec3
  area : ℚ
deriving DecidableEq, Repr

/-- Total area of a triangle list (the sampler's running `totalArea`). -/
def trisTotalArea (ts : List Tri) : ℚ :=
  (ts.map Tri.area).sum

/-- The selection loop: accumulate `areaSum` and stop at the first triangle
with `randomValue <= areaSum`. -/
def selectWeightedGo (randomValue : ℚ) (areaSum : ℚ) : List Tri → Option Tri
  | [] => none
  | t :: rest =>
    if randomValue ≤ areaSum + t.area then some t
    else selectWeightedGo randomValue (areaSum + t.area) rest

/-- Triangle selection including the fallback to the last list element when
the loop finishes without selecting. -/
def selectTriangle (ts : List Tri) (randomValue : ℚ) : Option Tri :=
  match selectWeightedGo randomValue 0 ts with
  | some t => some t
  | none => ts.getLast?

/-- A degenerate triangle of area `0` placed at the head of the list. -/
def degenerateTri : Tri :=
  ⟨⟨0, 0, 0⟩, ⟨1, 0, 0⟩, ⟨2, 0, 0⟩, ⟨0, 1, 0⟩, ⟨0, 1, 0⟩, ⟨0, 1, 0⟩, 0⟩

/-- A triangle of area `2`. -/
def fatTri : Tri :=
  ⟨⟨0, 0, 0⟩, ⟨2, 0, 0⟩, ⟨0, 2, 0⟩, ⟨0, 0, 1⟩, ⟨0, 0, 1⟩, ⟨0, 0, 1⟩, 2⟩

/-- Counterexample to C6: the draw value `0` lies in `[0, totalArea)` for the
two-triangle list `[degenerateTri, fatTri]`, yet the selection (which stops at
`randomValue <= areaSum`, not at a strictly exceeding sum) returns the
area-`0` degenerate triangle. -/
theorem zero_area_selected_at_zero_draw :
    (0 : ℚ) ≤ 0 ∧ (0 : ℚ) < trisTotalArea [degenerateTri, fatTri] ∧
    selectTriangle [degenerateTri, fatTri] 0 = some degenerateTri ∧
    degenerateTri.area = 0 := by
  refine ⟨le_refl 0, ?_, ?_, rfl⟩
  · norm_num [trisTotalArea, degenerateTri, fatTri]
  · norm_num [selectTriangle, selectWeightedGo, degenerateTri]

/-- The selection loop, entered with `areaSum < randomValue ≤ areaSum +`
remaining area, picks a triangle of strictly positive area. -/
theorem selectWeightedGo_pos (randomValue : ℚ) :
    ∀ (ts : List Tri) (areaSum : ℚ), areaSum < randomValue →
      randomValue ≤ areaSum + trisTotalArea ts →
      (selectWeightedGo randomValue areaSum ts).isSome = true ∧
      0 < ((selectWeightedGo randomValue areaSum ts).map Tri.area).getD 0 := by
  intro ts
  induction ts with
  | nil =>
    intro areaSum hlt hle
    simp [trisTotalArea] at hle
    exact absurd (lt_of_lt_of_le hlt hle) (lt_irrefl _)
  | cons t rest ih =>
    intro areaSum hlt hle
    by_cases hsel : randomValue ≤ areaSum + t.area
    · refine ⟨by simp [selectWeightedGo, hsel], ?_⟩
      have : 0 < t.area := by linarith
      simp [selectWeightedGo, hsel, this]
    · have hlt' : areaSum + t.area < randomValue := lt_of_not_le hsel
      have hle' : randomValue ≤ areaSum + t.area + trisTotalArea rest := by
        simp only [trisTotalArea, List.map_cons, List.sum_cons] at hle ⊢
        linarith
      have := ih (areaSum + t.area) hlt' hle'
      simpa [selectWeightedGo, hsel] using this

/-- C6 (amended): for a draw value strictly inside `(0, totalArea)` the
selection loop itself succeeds (no fallback) and the chosen triangle — the
first whose running area sum has reached the draw value — has strictly
positive area, so a degenerate triangle is never selected for a positive
draw; only the draw value exactly `0` can select a leading area-`0`
triangle. -/
theorem positive_draw_selects_positive_area (ts : List Tri) (randomValue : ℚ)
    (h0 : 0 < randomValue) (hT : randomValue < trisTotalArea ts) :
    selectTriangle ts randomValue = selectWeightedGo randomValue 0 ts ∧
    (selectTriangle ts randomValue).isSome = true ∧
    0 < ((selectTriangle ts randomValue).map Tri.area).getD 0 := by
  have h := selectWeightedGo_pos randomValue ts 0 h0 (by linarith)
  obtain ⟨hsome, hpos⟩ := h
  obtain ⟨t, ht⟩ := Option.isSome_iff_exists.mp hsome
  refine ⟨?_, ?_, ?_⟩
  · rw [selectTriangle, ht]
  · rw [selectTriangle, ht]; rfl
  · rw [selectTriangle, ht]
    rw [ht] at hpos
    exact hpos

/-- Witness for the amended C6 at the list `[degenerateTri, fatTri]` and draw
value `1`: the loop selects `fatTri`, of positive area. -/
theorem positive_draw_selects_positive_area_witness :
    selectTriangle [degenerateTri, fatTri] 1 =
      selectWeightedGo 1 0 [degenerateTri, fatTri] ∧
    (selectTriangle [degenerateTri, fatTri] 1).isSome = true ∧
    0 < ((selectTriangle [degenerateTri, fatTri] 1).map Tri.area).getD 0 :=
  positive_draw_selects_positive_area [degenerateTri, fatTri] 1 (by norm_num)
    (by norm_num [trisTotalArea, degenerateTri, fatTri])

/-!
## Sampler first pass and its per-call cache
(`generateEvenlyDistributedPoints`, Scene.ts lines 528-637)

```
const geometryCache = new Map<string, {triangles; totalArea}>();   // local!
...
object.traverse((child) => {
  if (!(child instanceof THREE.Mesh)) return;
  if (!geometry.index || !geometry.attributes.position) return;
  const cacheKey = child.uuid;
  if (geometryCache.has(cacheKey)) { ...concat cached... return; }
  ...derive triangles, meshTotalArea...
  geometryCache.set(cacheKey, { triangles, totalArea: meshTotalArea });
  allTriangles = allTriangles.concat(triangles);
  totalArea += meshTotalArea;
});
```

The traversal is modelled as the list of visited drawable leaves.  The decode
of a leaf's buffer attributes into world-space triangle records (external
three.js accessors plus matrix transforms) is carried as the leaf's
`triangles` data; deriving it is what a cache hit skips, so the model counts
the derivations performed.
-/

/-- A drawable leaf as seen by the sampler: its stable `uuid`, whether its
geometry has an index and a position attribute, and the triangle records its
buffers decode to. -/
structure MeshNode where
  uuid : ℕ
  hasIndex : Bool
  hasPosition : Bool
  triangles : List Tri
deriving DecidableEq, Repr

/-- Result of the sampler's first pass: collected triangles, running total
area, the geometry cache, and the number of per-leaf derivations performed
(cache misses that decoded a leaf's buffers). -/
structure CollectResult where
  allTriangles : List Tri
  totalArea : ℚ
  cache : List (ℕ × (List Tri × ℚ))
  derivations : ℕ
deriving DecidableEq, Repr

/-- The traversal body of the first pass. -/
def collectGo : List (ℕ × (List Tri × ℚ)) → List Tri → ℚ → ℕ →
    List MeshNode → CollectResult
  | cache, acc, area, derivs, [] => ⟨acc, area, cache, derivs⟩
  | cache, acc, area, derivs, m :: rest =>
    if m.hasIndex && m.hasPosition then
      match cache.lookup m.uuid with
      | some (tris, tArea) =>
        collectGo cache (acc ++ tris) (area + tArea) derivs rest
      | none =>
        collectGo ((m.uuid, (m.triangles, trisTotalArea m.triangles)) :: cache)
          (acc ++ m.triangles) (area + trisTotalArea m.triangles)
          (derivs + 1) rest
    else
      collectGo cache acc area derivs rest

/-- One invocation of the first pass.  `geometryCache` is a `const` local of
`generateEvenlyDistributedPoints`, so every invocation starts from an empty
cache. -/
def collectTriangles (meshes : List MeshNode) : CollectResult :=
  collectGo [] [] 0 0 meshes

/-- Two successive sampler calls on the same subtree: the derivation counts
of the first and of the second call.  The second call constructs its own
fresh empty `geometryCache`, exactly like the first. -/
def twoSampleCallDerivations (meshes : List MeshNode) : ℕ × ℕ :=
  ((collectTriangles meshes).derivations, (collectTriangles meshes).derivations)

/-- A drawable leaf with indexed geometry consisting of one triangle. -/
def demoMesh : MeshNode :=
  ⟨7, true, true, [fatTri]⟩

/-- Counterexample to C7: on a subtree with one drawable leaf the first call
derives the leaf's triangle list once — and so does the second call, because
each call's cache starts empty; the cache does not survive across calls (a
surviving cache would make the second component `0`). -/
theorem cache_not_shared_across_calls_cex :
    twoSampleCallDerivations [demoMesh] = (1, 1) ∧
    (twoSampleCallDerivations [demoMesh]).2 ≠ 0 := by
  constructor
  · rfl
  · decide

/-- The derivation count of the first pass never decreases. -/
theorem collectGo_derivations_le :
    ∀ (meshes : List MeshNode) cache acc area derivs,
      derivs ≤ (collectGo cache acc area derivs meshes).derivations := by
  intro meshes
  induction meshes with
  | nil => intro cache acc area derivs; simp [collectGo]
  | cons m rest ih =>
    intro cache acc area derivs
    by_cases he : m.hasIndex && m.hasPosition
    · rcases hc : cache.lookup m.uuid with _ | ⟨tris, tArea⟩
      · simp only [collectGo, he, if_true, hc]
        exact le_trans (Nat.le_succ _) (ih _ _ _ _)
      · simp only [collectGo, he, if_true, hc]
        exact ih _ _ _ _
    · simp only [collectGo, he, if_false]
      exact ih _ _ _ _

/-- C7 (amended): the triangle cache is keyed by the leaf's `uuid` (a stable
identity) but lives only for the duration of one sampler call.  Within one
call a repeated leaf is derived once, its cached triangles being reused; but
every call on a subtree with a drawable indexed leaf performs at least one
derivation, and a second call performs exactly as many derivations as the
first — nothing survives between calls. -/
theorem per_call_cache_behavior (m : MeshNode) (rest : List MeshNode)
    (hi : m.hasIndex = true) (hp : m.hasPosition = true) :
    1 ≤ (collectTriangles (m :: rest)).derivations ∧
    (collectTriangles [m, m]).derivations = 1 ∧
    (collectTriangles [m, m]).allTriangles = m.triangles ++ m.triangles ∧
    (twoSampleCallDerivations (m :: rest)).2 =
      (twoSampleCallDerivations (m :: rest)).1 := by
  have he : (m.hasIndex && m.hasPosition) = true := by rw [hi, hp]; rfl
  refine ⟨?_, ?_, ?_, rfl⟩
  · show 1 ≤ (collectGo [] [] 0 0 (m :: rest)).derivations
    simp only [collectGo, he, if_true, List.lookup_nil]
    exact collectGo_derivations_le rest _ _ _ _
  · show (collectGo [] [] 0 0 [m, m]).derivations = 1
    simp [collectGo, he, List.lookup_cons_self]
  · show (collectGo [] [] 0 0 [m, m]).allTriangles = m.triangles ++ m.triangles
    simp [collectGo, he, List.lookup_cons_self]

/-- Witness for the amended C7 at the single-leaf subtree `[demoMesh]`. -/
theorem per_call_cache_behavior_witness :
    1 ≤ (collectTriangles [demoMesh]).derivations ∧
    (collectTriangles [demoMesh, demoMesh]).derivations = 1 ∧
    (collectTriangles [demoMesh, demoMesh]).allTriangles =
      demoMesh.triangles ++ demoMesh.triangles ∧
    (twoSampleCallDerivations [demoMesh]).2 =
      (twoSampleCallDerivations [demoMesh]).1 := by
  have h := per_call_cache_behavior demoMesh [] rfl rfl
  simpa using h

/-!
## Barycentric point generation
(`getRandomPointOnTriangle`, Scene.ts lines 686-720)

```
let r1 = Math.random();
let r2 = Math.random();
if (r1 + r2 > 1) { r1 = 1 - r1; r2 = 1 - r2; }
const r3 = 1 - r1 - r2;
const position = new THREE.Vector3()
  .addScaledVector(v1, r1).addScaledVector(v2, r2).addScaledVector(v3, r3);
const normal = new THREE.Vector3()
  .addScaledVector(n1, r1).addScaledVector(n2, r2).addScaledVector(n3, r3)
  .normalize();
```

The final `.normalize()` on the interpolated normal (an external three.js
call) rescales the vector to unit length, preserving its direction; the model
records the interpolated vector it is applied to.
-/

/-- The fold of two uniform randoms into barycentric weights `(r1, r2, r3)`. -/
def foldBarycentric (r1 r2 : ℚ) : ℚ × ℚ × ℚ :=
  if 1 < r1 + r2 then (1 - r1, 1 - r2, 1 - (1 - r1) - (1 - r2))
  else (r1, r2, 1 - r1 - r2)

/-- `getRandomPointOnTriangle`: position and (pre-normalization) normal built
by the chained `addScaledVector` calls from the zero vector. -/
def getRandomPointOnTriangle (t : Tri) (r1 r2 : ℚ) : SurfacePoint :=
  let w := foldBarycentric r1 r2
  { position := ((Vec3.zero.addScaledVector t.p1 w.1).addScaledVector
      t.p2 w.2.1).addScaledVector t.p3 w.2.2
    normal := ((Vec3.zero.addScaledVector t.n1 w.1).addScaledVector
      t.n2 w.2.1).addScaledVector t.n3 w.2.2 }

/-- The linear interpolation of three vectors by barycentric weights, written
as the specification describes it. -/
def barycentricInterp (w : ℚ × ℚ × ℚ) (a b c : Vec3) : Vec3 :=
  ⟨w.1 * a.x + w.2.1 * b.x + w.2.2 * c.x,
   w.1 * a.y + w.2.1 * b.y + w.2.2 * c.y,
   w.1 * a.z + w.2.1 * b.z + w.2.2 * c.z⟩

/-- C9: for uniform draws `r1, r2 ∈ [0, 1)` the folded barycentric weights
are each non-negative and sum exactly to `1`, and the produced position and
(pre-normalization) normal are the linear interpolations of the triangle's
vertices and vertex normals by those weights. -/
theorem barycentric_fold_interpolation (t : Tri) (r1 r2 : ℚ)
    (h1 : 0 ≤ r1) (h2 : r1 < 1) (h3 : 0 ≤ r2) (h4 : r2 < 1) :
    0 ≤ (foldBarycentric r1 r2).1 ∧
    0 ≤ (foldBarycentric r1 r2).2.1 ∧
    0 ≤ (foldBarycentric r1 r2).2.2 ∧
    (foldBarycentric r1 r2).1 + (foldBarycentric r1 r2).2.1 +
      (foldBarycentric r1 r2).2.2 = 1 ∧
    (getRandomPointOnTriangle t r1 r2).position =
      barycentricInterp (foldBarycentric r1 r2) t.p1 t.p2 t.p3 ∧
    (getRandomPointOnTriangle t r1 r2).normal =
      barycentricInterp (foldBarycentric r1 r2) t.n1 t.n2 t.n3 := by
  have hint : ∀ a b c : Vec3,
      ((Vec3.zero.addScaledVector a (foldBarycentric r1 r2).1).addScaledVector
          b (foldBarycentric r1 r2).2.1).addScaledVector
          c (foldBarycentric r1 r2).2.2 =
        barycentricInterp (foldBarycentric r1 r2) a b c := by
    intro a b c
    simp only [Vec3.addScaledVector, Vec3.zero, barycentricInterp, Vec3.mk.injEq]
    refine ⟨by ring, by ring, by ring⟩
  by_cases hf : 1 < r1 + r2
  · refine ⟨?_, ?_, ?_, ?_, hint t.p1 t.p2 t.p3, hint t.n1 t.n2 t.n3⟩ <;>
      simp only [foldBarycentric, if_pos hf] <;> linarith
  · refine ⟨?_, ?_, ?_, ?_, hint t.p1 t.p2 t.p3, hint t.n1 t.n2 t.n3⟩ <;>
      simp only [foldBarycentric, if_neg hf] <;> linarith

/-- Witness for C9 at the triangle `fatTri`, `r1 = 1/2`, `r2 = 3/4` (the
folding branch `r1 + r2 > 1` is taken). -/
theorem barycentric_fold_interpolation_witness :
    0 ≤ (foldBarycentric (1 / 2) (3 / 4)).1 ∧
    0 ≤ (foldBarycentric (1 / 2) (3 / 4)).2.1 ∧
    0 ≤ (foldBarycentric (1 / 2) (3 / 4)).2.2 ∧
    (foldBarycentric (1 / 2) (3 / 4)).1 + (foldBarycentric (1 / 2) (3 / 4)).2.1 +
      (foldBarycentric (1 / 2) (3 / 4)).2.2 = 1 ∧
    (getRandomPointOnTriangle fatTri (1 / 2) (3 / 4)).position =
      barycentricInterp (foldBarycentric (1 / 2) (3 / 4))
        fatTri.p1 fatTri.p2 fatTri.p3 ∧
    (getRandomPointOnTriangle fatTri (1 / 2) (3 / 4)).normal =
      barycentricInterp (foldBarycentric (1 / 2) (3 / 4))
        fatTri.n1 fatTri.n2 fatTri.n3 :=
  barycentric_fold_interpolation fatTri (1 / 2) (3 / 4)
    (by norm_num) (by norm_num) (by norm_num) (by norm_num)

/-!
## The sampler's second pass and overall contract
(`generateEvenlyDistributedPoints`, Scene.ts lines 639-673)

```
if (allTriangles.length === 0) return [];
for (let i = 0; i < count; i++) {
  const randomValue = Math.random() * totalArea;
  ... select triangle (with last-element fallback) ...
  const { position, normal } = this.getRandomPointOnTriangle(...);
  points.push({ position, normal });
}
return points;
```
-/

/-- One full sampler call: first pass over the subtree's drawable leaves
(fresh cache), early return on an empty triangle list, then `count` pushes of
one point each.  `randSel i`, `r1s i`, `r2s i` are draw `i`'s three
`Math.random()` values. -/
def samplePoints (randSel r1s r2s : ℕ → ℚ) (meshes : List MeshNode)
    (count : ℕ) : List SurfacePoint :=
  let res := collectTriangles meshes
  if res.allTriangles.isEmpty then []
  else
    (List.range count).map fun i =>
      match selectTriangle res.allTriangles (randSel i * res.totalArea) with
      | some t => getRandomPointOnTriangle t (r1s i) (r2s i)
      | none => ⟨Vec3.zero, Vec3.zero⟩

/-- Counterexample to C8: for `requestedCount = 0` on a subtree that does
contain indexed triangle geometry the sampler returns the empty sequence, so
the result is not empty *exactly* when the subtree has no indexed triangle
geometry. -/
theorem sample_empty_at_zero_count_cex :
    samplePoints (fun _ => 0) (fun _ => 0) (fun _ => 0) [demoMesh] 0 = [] ∧
    (collectTriangles [demoMesh]).allTriangles ≠ [] := by
  constructor
  · rfl
  · decide

/-- C8 (amended): `sample(root, requestedCount)` returns at most
`requestedCount` surface points — exactly `requestedCount` when the subtree
contains indexed triangle geometry and `0` otherwise — and for
`requestedCount ≥ 1` it returns the empty sequence exactly when the subtree
contains no indexed triangle geometry (at `requestedCount = 0` the result is
empty regardless). -/
theorem sample_length_contract (randSel r1s r2s : ℕ → ℚ)
    (meshes : List MeshNode) (count : ℕ) :
    (samplePoints randSel r1s r2s meshes count).length ≤ count ∧
    (samplePoints randSel r1s r2s meshes count).length =
      (if (collectTriangles meshes).allTriangles.isEmpty then 0 else count) ∧
    (1 ≤ count →
      (samplePoints randSel r1s r2s meshes count = [] ↔
        (collectTriangles meshes).allTriangles = [])) := by
  by_cases he : (collectTriangles meshes).allTriangles.isEmpty
  · have hnil : (collectTriangles meshes).allTriangles = [] :=
      List.isEmpty_iff.mp he
    refine ⟨?_, ?_, fun _ => ?_⟩ <;>
      simp [samplePoints, he, hnil]
  · have hne : (collectTriangles meshes).allTriangles ≠ [] := by
      intro h
      exact he (List.isEmpty_iff.mpr h)
    refine ⟨?_, ?_, fun hc => ?_⟩
    · simp [samplePoints, he]
    · simp [samplePoints, he]
    · simp only [samplePoints, he, if_false]
      constructor
      · intro h
        have := congrArg List.length h
        simp [List.length_map] at this
        omega
      · intro h
        exact absurd h hne

/-- Witness for the amended C8: three points requested on the single-leaf
subtree `[demoMesh]`. -/
theorem sample_length_contract_witness :
    (samplePoints (fun _ => 0) (fun _ => 0) (fun _ => 0) [demoMesh] 3).length ≤ 3 ∧
    (samplePoints (fun _ => 0) (fun _ => 0) (fun _ => 0) [demoMesh] 3).length =
      (if (collectTriangles [demoMesh]).allTriangles.isEmpty then 0 else 3) ∧
    (1 ≤ 3 →
      (samplePoints (fun _ => 0) (fun _ => 0) (fun _ => 0) [demoMesh] 3 = [] ↔
        (collectTriangles [demoMesh]).allTriangles = [])) :=
  sample_length_contract (fun _ => 0) (fun _ => 0) (fun _ => 0) [demoMesh] 3

/-!
## Petal particle pool (`initPetalParticleSystem`, `emitPetals`,
`updatePetals`, Scene.ts lines 722-923)

The pool has fixed capacity `PETAL_COUNT = 100`, allocated once with every
slot inactive and its instance-matrix scale `0`.  `emitPetals` scans slots in
order (`for (i = 0; i < PETAL_COUNT && emitted < count; i++)`) and activates
inactive slots, setting `maxLifetime = 2 + Math.random() * 3`,
`lifetime = maxLifetime` and `scale = 0.05 + Math.random() * 0.05`.
`updatePetals` decrements each active slot's lifetime by `delta`; at
`lifetime <= 0` it deactivates the slot, zeroes `scale` and writes a zero
scale into the instance matrix; otherwise the written (rendered) scale is
`scale`, faded by `lifetime * 2` in the final `0.5` seconds.

The model keeps the lifecycle fields (`active`, `lifetime`, `maxLifetime`,
`scale`) plus the instance-matrix scale `rendered`.  Position, velocity and
rotation updates are omitted: they mix wall-clock time (`performance.now()`)
and trigonometric drift into fields none of the lifecycle claims mention.
-/

/-- The lifecycle fields of one pooled petal slot. -/
structure Petal where
  active : Bool
  lifetime : ℚ
  maxLifetime : ℚ
  scale : ℚ
  rendered : ℚ
deriving DecidableEq, Repr

/-- `PETAL_COUNT`. -/
def PETAL_COUNT : ℕ := 100

/-- The pool as initialized by `initPetalParticleSystem`: `PETAL_COUNT`
inactive slots, zero lifetimes, instance-matrix scale `0`. -/
def initPetalData : List Petal :=
  List.replicate PETAL_COUNT ⟨false, 0, 0, 0, 0⟩

/-- The slot state `emitPetals` writes when it activates slot `i`:
`maxLifetime = 2 + randLife i * 3`, `lifetime = maxLifetime`,
`scale = 0.05 + randScale i * 0.05`, `active = true`.  The instance matrix is
not rewritten by `emitPetals`, so `rendered` is carried over. -/
def emittedPetal (randLife randScale : ℕ → ℚ) (i : ℕ) (old : Petal) : Petal :=
  { active := true
    lifetime := 2 + randLife i * 3
    maxLifetime := 2 + randLife i * 3
    scale := 1 / 20 + randScale i * (1 / 20)
    rendered := old.rendered }

/-- The scan loop of `emitPetals`: slot index `i`, slots activated so far
`emitted`; an inactive slot is activated while `emitted < count`. -/
def emitGo (randLife randScale : ℕ → ℚ) (count : ℕ) :
    ℕ → ℕ → List Petal → List Petal
  | _, _, [] => []
  | i, emitted, p :: rest =>
    if emitted < count ∧ p.active = false then
      emittedPetal randLife randScale i p ::
        emitGo randLife randScale count (i + 1) (emitted + 1) rest
    else
      p :: emitGo randLife randScale count (i + 1) emitted rest

/-- `emitPetals(position, count)` on the pool (the position only seeds the
omitted kinematic fields). -/
def emitPetals (randLife randScale : ℕ → ℚ) (count : ℕ)
    (pool : List Petal) : List Petal :=
  emitGo randLife randScale count 0 0 pool

/-- One slot's update in `updatePetals`: decrement `lifetime` by `delta`; on
`lifetime <= 0` deactivate, zero `scale` and write a zero instance-matrix
scale; otherwise write `scale`, faded by `lifetime * 2` once
`lifetime < 0.5`. -/
def tickPetal (delta : ℚ) (p : Petal) : Petal :=
  if p.active then
    let lt := p.lifetime - delta
    if lt ≤ 0 then
      { p with active := false, lifetime := lt, scale := 0, rendered := 0 }
    else
      { p with lifetime := lt,
               rendered := if lt < 1 / 2 then p.scale * (lt * 2) else p.scale }
  else
    p

/-- `updatePetals(delta)` over the whole pool. -/
def updatePetals (delta : ℚ) (pool : List Petal) : List Petal :=
  pool.map (tickPetal delta)

/-- An operation on the pool: an emission or an animation tick. -/
inductive PetalOp where
  | emit (randLife randScale : ℕ → ℚ) (count : ℕ)
  | tick (delta : ℚ)

/-- Apply one operation. -/
def stepPetals (pool : List Petal) : PetalOp → List Petal
  | .emit randLife randScale count => emitPetals randLife randScale count pool
  | .tick delta => updatePetals delta pool

/-- Run a sequence of operations from the freshly initialized pool. -/
def runPetals (ops : List PetalOp) : List Petal :=
  ops.foldl stepPetals initPetalData

/-- Number of active slots. -/
def countActive (pool : List Petal) : ℕ :=
  pool.countP fun p => p.active

/-- Number of inactive slots. -/
def countInactive (pool : List Petal) : ℕ :=
  pool.countP fun p => !p.active

/-- `emitGo` preserves the pool length. -/
theorem emitGo_length (randLife randScale : ℕ → ℚ) (count : ℕ) :
    ∀ (pool : List Petal) (i emitted : ℕ),
      (emitGo randLife randScale count i emitted pool).length = pool.length := by
  intro pool
  induction pool with
  | nil => intro i emitted; rfl
  | cons p rest ih =>
    intro i emitted
    by_cases h : emitted < count ∧ p.active = false
    · simp [emitGo, h, ih]
    · simp [emitGo, h, ih]

/-- Every operation preserves the pool length. -/
theorem stepPetals_length (pool : List Petal) (op : PetalOp) :
    (stepPetals pool op).length = pool.length := by
  cases op with
  | emit randLife randScale count =>
    exact emitGo_length randLife randScale count pool 0 0
  | tick delta => simp [stepPetals, updatePetals]

/-- `emitGo` activates exactly `min (count - emitted) (countInactive pool)`
additional slots. -/
theorem emitGo_countActive (randLife randScale : ℕ → ℚ) (count : ℕ) :
    ∀ (pool : List Petal) (i emitted : ℕ),
      countActive (emitGo randLife randScale count i emitted pool) =
        countActive pool + min (count - emitted) (countInactive pool) := by
  intro pool
  induction pool with
  | nil => intro i emitted; simp [emitGo, countActive, countInactive]
  | cons p rest ih =>
    intro i emitted
    simp only [countActive, countInactive] at ih ⊢
    by_cases h : emitted < count ∧ p.active = false
    · obtain ⟨hlt, hinact⟩ := h
      rw [show emitGo randLife randScale count i emitted (p :: rest) =
            emittedPetal randLife randScale i p ::
              emitGo randLife randScale count (i + 1) (emitted + 1) rest from by
          rw [emitGo, if_pos ⟨hlt, hinact⟩]]
      simp only [List.countP_cons, ih (i + 1) (emitted + 1), emittedPetal,
        hinact]
      simp
      omega
    · rw [show emitGo randLife randScale count i emitted (p :: rest) =
            p :: emitGo randLife randScale count (i + 1) emitted rest from by
          rw [emitGo, if_neg h]]
      simp only [List.countP_cons, ih (i + 1) emitted]
      by_cases ha : p.active
      · simp only [ha]
        simp
        omega
      · have hinact : p.active = false := by simpa using ha
        have hcount : ¬ emitted < count := fun hlt => h ⟨hlt, hinact⟩
        have hce : count - emitted = 0 := by omega
        simp only [hinact, hce]
        simp

/-- C3: particle pool capacity invariant.  Over every sequence of `emit` and
`tick` operations the number of active slots never exceeds the capacity
`PETAL_COUNT = 100`; an `emit` activates exactly
`min count (countInactive pool)` slots — when the request exceeds the
inactive slots only those are activated, with no queuing and no error. -/
theorem petal_pool_capacity :
    (∀ ops : List PetalOp, countActive (runPetals ops) ≤ 100) ∧
    (∀ (randLife randScale : ℕ → ℚ) (count : ℕ) (pool : List Petal),
      countActive (emitPetals randLife randScale count pool) =
        countActive pool + min count (countInactive pool)) := by
  constructor
  · intro ops
    have hlen : (runPetals ops).length = 100 := by
      rw [runPetals]
      induction ops using List.reverseRecOn with
      | nil => simp [initPetalData, PETAL_COUNT]
      | append_singleton l op ih =>
        rw [List.foldl_append, List.foldl_cons, List.foldl_nil,
          stepPetals_length, ih]
    calc countActive (runPetals ops) ≤ (runPetals ops).length :=
          List.countP_le_length _
      _ = 100 := hlen
  · intro randLife randScale count pool
    have := emitGo_countActive randLife randScale count pool 0 0
    simpa [emitPetals] using this

/-- A deactivated slot keeps the decremented (possibly negative) `lifetime`:
this operation sequence — one emission with `Math.random() = 0`
(`maxLifetime = 2`), then a tick of `3` seconds — drives slot 0's stored
lifetime to `-1`. -/
def petalCexOps : List PetalOp :=
  [PetalOp.emit (fun _ => 0) (fun _ => 0) 1, PetalOp.tick 3]

/-- Counterexample to C4: after the tick, slot 0 of the pool stores
`lifetime = -1 < 0` (the code deactivates the slot but never clamps the
decremented lifetime), so `0 ≤ lifetime` does not hold for every slot after
every tick. -/
theorem petal_lifetime_negative_cex :
    ((runPetals petalCexOps).head?.map Petal.lifetime) = some (-1) ∧
    ¬ (∀ p ∈ runPetals petalCexOps, 0 ≤ p.lifetime ∧
        p.lifetime ≤ p.maxLifetime) := by
  have hrun : runPetals petalCexOps =
      tickPetal 3 (emittedPetal (fun _ => 0) (fun _ => 0) 0 ⟨false, 0, 0, 0, 0⟩) ::
        List.map (tickPetal 3)
          (emitGo (fun _ => 0) (fun _ => 0) 1 1 1
            (List.replicate 99 ⟨false, 0, 0, 0, 0⟩)) := by
    show updatePetals 3
        (emitPetals (fun _ => 0) (fun _ => 0) 1 initPetalData) = _
    rw [show initPetalData =
        ⟨false, 0, 0, 0, 0⟩ :: List.replicate 99 ⟨false, 0, 0, 0, 0⟩ from rfl]
    rw [emitPetals, emitGo, if_pos ⟨Nat.zero_lt_one, rfl⟩]
    rw [updatePetals, List.map_cons]
  have hhead :
      tickPetal 3 (emittedPetal (fun _ => 0) (fun _ => 0) 0 ⟨false, 0, 0, 0, 0⟩) =
        ⟨false, -1, 2, 0, 0⟩ := by
    norm_num [tickPetal, emittedPetal]
  refine ⟨?_, ?_⟩
  · rw [hrun, hhead]
    rfl
  · intro hall
    have hmem := hall _ (by rw [hrun]; exact List.mem_cons_self _ _)
    rw [hhead] at hmem
    obtain ⟨h1, _⟩ := hmem
    norm_num at h1

/-- Well-formedness of an operation, as the code guarantees it: the
`Math.random()` draws of an emission lie in `[0, 1)`, and a clock delta is
non-negative. -/
def WFPetalOp : PetalOp → Prop
  | .emit randLife _ _ => ∀ i, 0 ≤ randLife i ∧ randLife i < 1
  | .tick delta => 0 ≤ delta

/-- The lifetime invariant that does hold: every *active* slot satisfies
`0 < lifetime ≤ maxLifetime`. -/
def PetalInv (pool : List Petal) : Prop :=
  ∀ p ∈ pool, p.active = true → 0 < p.lifetime ∧ p.lifetime ≤ p.maxLifetime

/-- `emitGo` preserves the active-slot lifetime invariant when the lifetime
draws are non-negative. -/
theorem emitGo_inv (randLife randScale : ℕ → ℚ) (count : ℕ)
    (h0 : ∀ i, 0 ≤ randLife i) :
    ∀ (pool : List Petal) (i emitted : ℕ), PetalInv pool →
      PetalInv (emitGo randLife randScale count i emitted pool) := by
  intro pool
  induction pool with
  | nil =>
    intro i emitted h
    simpa [emitGo] using h
  | cons p rest ih =>
    intro i emitted hp
    have hrest : PetalInv rest := fun q hq => hp q (List.mem_cons_of_mem _ hq)
    have hhead := hp p (List.mem_cons_self _ _)
    by_cases h : emitted < count ∧ p.active = false
    · obtain ⟨hlt, hin⟩ := h
      rw [show emitGo randLife randScale count i emitted (p :: rest) =
            emittedPetal randLife randScale i p ::
              emitGo randLife randScale count (i + 1) (emitted + 1) rest from by
          rw [emitGo, if_pos ⟨hlt, hin⟩]]
      intro q hq
      rcases List.mem_cons.mp hq with hq | hq
      · subst hq
        intro _
        have hri := h0 i
        constructor
        · simp only [emittedPetal]
          linarith
        · simp [emittedPetal]
      · exact ih (i + 1) (emitted + 1) hrest q hq
    · rw [show emitGo randLife randScale count i emitted (p :: rest) =
            p :: emitGo randLife randScale count (i + 1) emitted rest from by
          rw [emitGo, if_neg h]]
      intro q hq
      rcases List.mem_cons.mp hq with hq | hq
      · subst hq
        exact hhead
      · exact ih (i + 1) emitted hrest q hq

/-- `tickPetal` preserves the active-slot lifetime invariant for a
non-negative delta. -/
theorem tickPetal_inv (delta : ℚ) (hd : 0 ≤ delta) (p : Petal)
    (hp : p.active = true → 0 < p.lifetime ∧ p.lifetime ≤ p.maxLifetime) :
    (tickPetal delta p).active = true →
      0 < (tickPetal delta p).lifetime ∧
      (tickPetal delta p).lifetime ≤ (tickPetal delta p).maxLifetime := by
  by_cases ha : p.active
  · obtain ⟨hpos, hle⟩ := hp ha
    by_cases hz : p.lifetime - delta ≤ 0
    · intro hact
      exfalso
      simp [tickPetal, ha, hz] at hact
    · intro _
      have hgt : 0 < p.lifetime - delta := lt_of_not_le hz
      have h1 : (tickPetal delta p).lifetime = p.lifetime - delta := by
        simp [tickPetal, ha, hz]
      have h2 : (tickPetal delta p).maxLifetime = p.maxLifetime := by
        simp [tickPetal, ha, hz]
      rw [h1, h2]
      exact ⟨hgt, by linarith⟩
  · intro hact
    have heq : tickPetal delta p = p := by simp [tickPetal, ha]
    rw [heq] at hact
    rw [heq]
    exact hp hact

/-- One well-formed operation preserves the invariant. -/
theorem stepPetals_inv (pool : List Petal) (op : PetalOp)
    (hw : WFPetalOp op) (h : PetalInv pool) : PetalInv (stepPetals pool op) := by
  cases op with
  | emit randLife randScale count =>
    exact emitGo_inv randLife randScale count (fun i => (hw i).1) pool 0 0 h
  | tick delta =>
    intro q hq
    simp only [stepPetals, updatePetals, List.mem_map] at hq
    obtain ⟨p, hp, rfl⟩ := hq
    exact tickPetal_inv delta hw p (h p hp)

/-- The freshly initialized pool satisfies the invariant (no active slot). -/
theorem initPetalData_inv : PetalInv initPetalData := by
  intro p hp
  have := List.eq_of_mem_replicate hp
  subst this
  intro hact
  cases hact

/-- C4 (amended): after every well-formed emit and tick from the initial
pool every *active* slot satisfies `0 < lifetime ≤ maxLifetime` (a slot
deactivated by a tick retains its negative decremented lifetime — the code
does not clamp it to `0`); each tick decrements an active slot's lifetime by
exactly `delta`; when the decremented lifetime reaches `≤ 0` the slot is
deactivated in that same tick with its `scale` and rendered instance-matrix
scale forced to `0`; and a freed slot is immediately eligible for reuse: the
next emit with positive count activates it. -/
theorem petal_lifecycle_amended :
    (∀ ops : List PetalOp, (∀ op ∈ ops, WFPetalOp op) →
      PetalInv (runPetals ops)) ∧
    (∀ (delta : ℚ) (p : Petal), p.active = true →
      (tickPetal delta p).lifetime = p.lifetime - delta) ∧
    (∀ (delta : ℚ) (p : Petal), p.active = true → p.lifetime - delta ≤ 0 →
      (tickPetal delta p).active = false ∧ (tickPetal delta p).scale = 0 ∧
      (tickPetal delta p).rendered = 0) ∧
    (∀ (randLife randScale : ℕ → ℚ) (count : ℕ) (p : Petal)
        (rest : List Petal), p.active = false → 0 < count →
      emitPetals randLife randScale count (p :: rest) =
        emittedPetal randLife randScale 0 p ::
          emitGo randLife randScale count 1 1 rest) := by
  refine ⟨?_, ?_, ?_, ?_⟩
  · intro ops hw
    rw [runPetals]
    induction ops using List.reverseRecOn with
    | nil => exact initPetalData_inv
    | append_singleton l op ih =>
      rw [List.foldl_append, List.foldl_cons, List.foldl_nil]
      refine stepPetals_inv _ op (hw op (by simp)) ?_
      exact ih fun o ho => hw o (by simp [ho])
  · intro delta p ha
    by_cases hz : p.lifetime - delta ≤ 0 <;> simp [tickPetal, ha, hz]
  · intro delta p ha hz
    refine ⟨?_, ?_, ?_⟩ <;> simp [tickPetal, ha, hz]
  · intro randLife randScale count p rest hin hc
    rw [emitPetals, emitGo, if_pos ⟨hc, hin⟩]

/-- Witness for the amended C4: a well-formed emit-then-tick sequence keeps
the invariant; a tick of `1/2` decrements an active slot's lifetime by `1/2`;
a tick of `3` on a slot with lifetime `2` deactivates it and zeroes its
scales; and an emit activates an inactive head slot. -/
theorem petal_lifecycle_amended_witness :
    PetalInv (runPetals [PetalOp.emit (fun _ => 0) (fun _ => 0) 5,
      PetalOp.tick (1 / 2)]) ∧
    (tickPetal (1 / 2) ⟨true, 2, 2, 1 / 20, 0⟩).lifetime = (2 : ℚ) - 1 / 2 ∧
    ((tickPetal 3 ⟨true, 2, 2, 1 / 20, 0⟩).active = false ∧
      (tickPetal 3 ⟨true, 2, 2, 1 / 20, 0⟩).scale = 0 ∧
      (tickPetal 3 ⟨true, 2, 2, 1 / 20, 0⟩).rendered = 0) ∧
    emitPetals (fun _ => 0) (fun _ => 0) 1 [⟨false, -1, 2, 0, 0⟩] =
      emittedPetal (fun _ => 0) (fun _ => 0) 0 ⟨false, -1, 2, 0, 0⟩ ::
        emitGo (fun _ => 0) (fun _ => 0) 1 1 1 [] := by
  refine ⟨?_, ?_, ?_, ?_⟩
  · refine petal_lifecycle_amended.1 _ ?_
    intro op hop
    rcases hop with _ | ⟨_, hop⟩
    · exact fun i => ⟨le_refl 0, by norm_num⟩
    · rcases hop with _ | ⟨_, hop⟩
      · show (0 : ℚ) ≤ 1 / 2
        norm_num
      · cases hop
  · exact petal_lifecycle_amended.2.1 (1 / 2) ⟨true, 2, 2, 1 / 20, 0⟩ rfl
  · exact petal_lifecycle_amended.2.2.1 3 ⟨true, 2, 2, 1 / 20, 0⟩ rfl
      (by norm_num)
  · exact petal_lifecycle_amended.2.2.2 (fun _ => 0) (fun _ => 0) 1
      ⟨false, -1, 2, 0, 0⟩ [] rfl (by norm_num)

/-!
## Event listeners across construction and disposal
(`addEventListeners`, Scene.ts lines 139-143; `dispose`, lines 335-367)

```
private addEventListeners(): void {
  this.canvas.addEventListener('mousemove', this.onMouseMove.bind(this));
  window.addEventListener('resize', this.handleResize.bind(this));
}
dispose(): void {
  this.canvas.removeEventListener('mousemove', this.onMouseMove.bind(this));
  window.removeEventListener('resize', this.handleResize.bind(this));
  ...
}
```

`Function.prototype.bind` returns a *new* function object on every call, and
DOM `removeEventListener` removes a registration only when the passed
callback is reference-equal to the registered one.  The model gives each
`bind` result a fresh identity drawn from a counter and lets
`removeEventListener` filter by event name and callback identity.
-/

/-- The listener-relevant state: the next fresh function-object identity and
the list of registrations `(event name, callback identity)` on the
canvas/window targets. -/
structure ListenerState where
  nextId : ℕ
  listeners : List (String × ℕ)
deriving DecidableEq, Repr

/-- `handler.bind(this)`: allocates a fresh function object. -/
def bindHandler (s : ListenerState) : ℕ × ListenerState :=
  (s.nextId, { s with nextId := s.nextId + 1 })

/-- DOM `addEventListener`: registers the callback. -/
def domAddEventListener (ev : String) (f : ℕ) (s : ListenerState) :
    ListenerState :=
  { s with listeners := s.listeners ++ [(ev, f)] }

/-- DOM `removeEventListener`: removes registrations whose event name and
callback identity both match; a callback that was never registered matches
nothing. -/
def domRemoveEventListener (ev : String) (f : ℕ) (s : ListenerState) :
    ListenerState :=
  { s with listeners :=
      s.listeners.filter fun r => !(r.1 = ev ∧ r.2 = f : Bool) }

/-- `addEventListeners` (run at construction): two fresh bound handlers are
registered. -/
def sceneAddEventListeners (s : ListenerState) : ListenerState :=
  let b1 := bindHandler s
  let s1 := domAddEventListener "mousemove" b1.1 b1.2
  let b2 := bindHandler s1
  domAddEventListener "resize" b2.1 b2.2

/-- The listener part of `dispose`: two *freshly bound* handlers are passed
to `removeEventListener`. -/
def sceneDisposeListeners (s : ListenerState) : ListenerState :=
  let b1 := bindHandler s
  let s1 := domRemoveEventListener "mousemove" b1.1 b1.2
  let b2 := bindHandler s1
  domRemoveEventListener "resize" b2.1 b2.2

/-- C5 (code bug): constructing the scene registers the mousemove and resize
listeners with callbacks `0` and `1`; `dispose()` then calls
`removeEventListener` with the freshly bound callbacks `2` and `3`, which
match nothing — both listeners registered at construction remain attached
after disposal, contradicting the claim that `dispose()` detaches all event
listeners registered at construction. -/
theorem dispose_listeners_remain :
    (sceneAddEventListeners ⟨0, []⟩).listeners =
      [("mousemove", 0), ("resize", 1)] ∧
    (sceneDisposeListeners (sceneAddEventListeners ⟨0, []⟩)).listeners =
      [("mousemove", 0), ("resize", 1)] ∧
    (sceneDisposeListeners (sceneAddEventListeners ⟨0, []⟩)).listeners ≠ [] := by
  refine ⟨rfl, ?_, ?_⟩ <;> decide
